import Mathlib

/-
Verification of the allocator contract of mimalloc_rust.

The repository's source file, src/libmimalloc-sys/src/lib.rs, contains only
the extern "C" declarations of the mimalloc engine (mi_malloc, mi_zalloc,
mi_realloc, mi_malloc_aligned, mi_zalloc_aligned, mi_realloc_aligned,
mi_free) together with their documentation comments; the C implementation
behind them is not part of the repository. The allocator engine is therefore
modelled here from the specification (its data model in section 3, the
facade contract in section 4.5 and the error-handling rules in section 7),
keeping the declared names, and the claims are settled against that model.

A pointer is a natural number; the null pointer is 0. Memory contents are a
function from addresses to byte values. The segment provider is abstracted
by a remaining-capacity budget: an allocation of s bytes succeeds exactly
when s does not exceed the remaining capacity, fails (returns null and
leaves the state unchanged) otherwise, and freeing a block refunds its
capacity — this realises null-on-OOM and the reuse property of freed
capacity. Fresh blocks are placed at increasing addresses, aligned upward
as requested.
-/

namespace Mimalloc

/-- Modelled from the spec: a Block (section 3) — a single allocatable unit,
identified by its address, with a capacity of usable bytes at least the
requested size. The mimalloc C engine that maintains blocks is missing from
the repository. -/
structure Block where
  addr : Nat
  cap : Nat
  deriving DecidableEq

/-- Modelled from the spec: the allocator state visible through the facade.
The mimalloc C engine behind the extern declarations is missing from the
repository. `blocks` is the list of live blocks, `mem` the byte contents of
memory, `nextAddr` the next fresh address the engine will carve a block
from, and `capacity` the remaining capacity the segment provider can still
supply (allocations consume it, frees refund it; exhaustion is OOM). -/
structure AllocState where
  blocks : List Block
  mem : Nat → Nat
  nextAddr : Nat
  capacity : Nat

/-- Modelled from the spec: rounding an address up to a multiple of the
requested power-of-two alignment (section 4.1). -/
def alignUp (n a : Nat) : Nat := (n + a - 1) / a * a

/-- Modelled from the spec: address-to-owner lookup (section 9) — recover a
live block from its raw address alone, as free and realloc must. -/
def findBlock (st : AllocState) (p : Nat) : Option Block :=
  st.blocks.find? (fun x => x.addr == p)

/-- Modelled from the spec: well-formedness of an allocator state — the
null address 0 is never handed out, and every live block lies strictly
below the next fresh address. -/
def WF (st : AllocState) : Prop :=
  0 < st.nextAddr ∧ ∀ b ∈ st.blocks, b.addr + b.cap < st.nextAddr

instance (st : AllocState) : Decidable (WF st) := by
  unfold WF; infer_instance

/-- Modelled from the spec: mi_malloc_aligned — allocate `size` bytes
aligned by `alignment`; pointer to at least `size` usable bytes whose
address is a multiple of `alignment`, or null on OOM with the state
unchanged (sections 4.5 and 7). The C body is missing from the
repository. -/
def mi_malloc_aligned (size alignment : Nat) (st : AllocState) :
    Option Nat × AllocState :=
  if size ≤ st.capacity then
    let addr := alignUp st.nextAddr alignment
    (some addr,
     { st with
        blocks := ⟨addr, size⟩ :: st.blocks,
        nextAddr := addr + size + 1,
        capacity := st.capacity - size })
  else (none, st)

/-- Modelled from the spec: mi_malloc — allocate `size` bytes at natural
alignment; null on OOM; size 0 returns a valid, freeable pointer. The C
body is missing from the repository. -/
def mi_malloc (size : Nat) (st : AllocState) : Option Nat × AllocState :=
  mi_malloc_aligned size 1 st

/-- Modelled from the spec: mi_zalloc_aligned — as mi_malloc_aligned, with
the block's first `size` bytes zero-filled. The C body is missing from the
repository. -/
def mi_zalloc_aligned (size alignment : Nat) (st : AllocState) :
    Option Nat × AllocState :=
  if size ≤ st.capacity then
    let addr := alignUp st.nextAddr alignment
    (some addr,
     { blocks := ⟨addr, size⟩ :: st.blocks,
       mem := fun x => if addr ≤ x ∧ x < addr + size then 0 else st.mem x,
       nextAddr := addr + size + 1,
       capacity := st.capacity - size })
  else (none, st)

/-- Modelled from the spec: mi_zalloc — zero-initialized allocation at
natural alignment. The C body is missing from the repository. -/
def mi_zalloc (size : Nat) (st : AllocState) : Option Nat × AllocState :=
  mi_zalloc_aligned size 1 st

/-- Modelled from the spec: mi_realloc_aligned — reallocate `p` to
`newsize` bytes aligned by `alignment`. Null `p` behaves as an aligned
allocation; a live block that already fits keeps its place; otherwise a
fresh block is carved, the first min(old, new) bytes are copied over, and
the original block is freed (its capacity refunded). On OOM null is
returned and the pointer `p` is not freed (sections 4.5 and 7, and the
documentation of the extern declaration). The C body is missing from the
repository. -/
def mi_realloc_aligned (p newsize alignment : Nat) (st : AllocState) :
    Option Nat × AllocState :=
  if p = 0 then
    if newsize ≤ st.capacity then
      let addr := alignUp st.nextAddr alignment
      (some addr,
       { st with
          blocks := ⟨addr, newsize⟩ :: st.blocks,
          nextAddr := addr + newsize + 1,
          capacity := st.capacity - newsize })
    else (none, st)
  else
    match findBlock st p with
    | none => (none, st)
    | some b =>
      if newsize ≤ b.cap then
        (some p, st)
      else if newsize ≤ st.capacity then
        let addr := alignUp st.nextAddr alignment
        (some addr,
         { blocks := ⟨addr, newsize⟩ ::
              st.blocks.filter (fun x => x.addr != p),
           mem := fun x =>
              if addr ≤ x ∧ x < addr + b.cap then st.mem (p + (x - addr))
              else st.mem x,
           nextAddr := addr + newsize + 1,
           capacity := st.capacity - newsize + b.cap })
      else (none, st)

/-- Modelled from the spec: mi_realloc — reallocate at natural alignment.
The C body is missing from the repository. -/
def mi_realloc (p newsize : Nat) (st : AllocState) :
    Option Nat × AllocState :=
  mi_realloc_aligned p newsize 1 st

/-- Modelled from the spec: mi_free — free a previously allocated block,
refunding its capacity; freeing null is a no-op (section 4.5). The C body
is missing from the repository. -/
def mi_free (p : Nat) (st : AllocState) : AllocState :=
  if p = 0 then st
  else
    match findBlock st p with
    | none => st
    | some b =>
      { st with
          blocks := st.blocks.filter (fun x => x.addr != p),
          capacity := st.capacity + b.cap }

/-! ## Helper lemmas -/

theorem alignUp_dvd (n a : Nat) : a ∣ alignUp n a :=
  ⟨(n + a - 1) / a, Nat.mul_comm _ _⟩

theorem le_alignUp (n a : Nat) (h : 0 < a) : n ≤ alignUp n a := by
  have h1 := Nat.div_add_mod (n + a - 1) a
  have h2 := Nat.mod_lt (n + a - 1) h
  unfold alignUp
  rw [Nat.mul_comm]
  generalize (n + a - 1) / a = q at h1 ⊢
  generalize (n + a - 1) % a = r at h1 h2
  generalize a * q = k at h1 ⊢
  omega

theorem alignUp_one (n : Nat) : alignUp n 1 = n := by
  simp [alignUp]

theorem findBlock_addr {st : AllocState} {p : Nat} {b : Block}
    (h : findBlock st p = some b) : b.addr = p := by
  have := List.find?_some h
  exact eq_of_beq this

theorem findBlock_mem {st : AllocState} {p : Nat} {b : Block}
    (h : findBlock st p = some b) : b ∈ st.blocks :=
  List.mem_of_find?_eq_some h

/-! ## Concrete states used by the witnesses -/

/-- A small well-formed state: one live block at address 1 of capacity 2,
memory holding byte `a` at address `a`, next fresh address 4, and 10 bytes
of provider capacity left. -/
def stW : AllocState := ⟨[⟨1, 2⟩], fun a => a, 4, 10⟩

/-- As `stW` but with the segment provider exhausted (capacity 0). -/
def stOOM : AllocState := ⟨[⟨1, 2⟩], fun a => a, 4, 0⟩

/-! ## Claims -/

/-- C3: for every size s, if `mi_zalloc s` returns a non-null pointer q,
then the first s bytes of the returned block are all zero. -/
theorem c3_zalloc_zero_fills (st : AllocState) (s q : Nat)
    (hq : (mi_zalloc s st).1 = some q) :
    ∀ i, i < s → (mi_zalloc s st).2.mem (q + i) = 0 := by
  intro i hi
  unfold mi_zalloc mi_zalloc_aligned at hq ⊢
  by_cases h : s ≤ st.capacity
  · rw [if_pos h] at hq ⊢
    simp only [Option.some.injEq] at hq
    subst hq
    have hc : alignUp st.nextAddr 1 ≤ alignUp st.nextAddr 1 + i ∧
        alignUp st.nextAddr 1 + i < alignUp st.nextAddr 1 + s :=
      ⟨Nat.le_add_right _ _, Nat.add_lt_add_left hi _⟩
    simp [hc]
  · rw [if_neg h] at hq
    simp at hq

/-- C3 witness: zero-allocating 2 bytes in the concrete state `stW` yields
the pointer 4 and the byte at offset 1 is zero. -/
theorem c3_zalloc_zero_fills_wit : (mi_zalloc 2 stW).2.mem (4 + 1) = 0 :=
  c3_zalloc_zero_fills stW 2 4 (by rfl) 1 (by decide)

/-- C4: for every size s and power-of-two alignment a, if
`mi_malloc_aligned s a` returns a non-null pointer q, then q is a multiple
of a and the returned block has capacity at least s. -/
theorem c4_malloc_aligned_spec (st : AllocState) (s a q : Nat)
    (hpow : ∃ k, a = 2 ^ k)
    (hq : (mi_malloc_aligned s a st).1 = some q) :
    a ∣ q ∧ ∃ blk ∈ (mi_malloc_aligned s a st).2.blocks,
      blk.addr = q ∧ s ≤ blk.cap := by
  unfold mi_malloc_aligned at hq ⊢
  by_cases h : s ≤ st.capacity
  · rw [if_pos h] at hq ⊢
    simp only [Option.some.injEq] at hq
    subst hq
    refine ⟨alignUp_dvd _ _, ⟨alignUp st.nextAddr a, s⟩, ?_, rfl, Nat.le_refl s⟩
    simp
  · rw [if_neg h] at hq
    simp at hq

/-- C4 witness: allocating 3 bytes at alignment 8 in the concrete state
`stW` returns the pointer 8, a multiple of 8, backing a block of capacity
at least 3. -/
theorem c4_malloc_aligned_spec_wit :
    (8 : Nat) ∣ 8 ∧ ∃ blk ∈ (mi_malloc_aligned 3 8 stW).2.blocks,
      blk.addr = 8 ∧ 3 ≤ blk.cap :=
  c4_malloc_aligned_spec stW 3 8 8 ⟨3, rfl⟩ (by rfl)

/-- C6: freeing the null pointer is a no-op — for every allocator state the
state is returned unchanged. -/
theorem c6_free_null_noop (st : AllocState) : mi_free 0 st = st := by
  simp [mi_free]

/-- C7: reallocating from the null pointer behaves identically to a fresh
allocation — for every newsize and state, `mi_realloc 0 newsize` and
`mi_malloc newsize` return the same result and the same new state. -/
theorem c7_realloc_null_is_malloc (n : Nat) (st : AllocState) :
    mi_realloc 0 n st = mi_malloc n st := by
  simp [mi_realloc, mi_realloc_aligned, mi_malloc, mi_malloc_aligned]

/-- C1: if reallocating a live pointer p whose block has capacity `b.cap`
to `n` bytes returns a non-null pointer q, then the bytes at offsets below
min(b.cap, n) of the returned block equal the bytes the original block held
at those offsets before the call. -/
theorem c1_realloc_preserves_bytes (st : AllocState) (p n : Nat) (b : Block)
    (q : Nat) (hp : p ≠ 0) (hb : findBlock st p = some b)
    (hq : (mi_realloc p n st).1 = some q) :
    ∀ i, i < min b.cap n →
      (mi_realloc p n st).2.mem (q + i) = st.mem (p + i) := by
  intro i hi
  unfold mi_realloc mi_realloc_aligned at hq ⊢
  rw [if_neg hp] at hq ⊢
  simp only [hb] at hq ⊢
  by_cases hfit : n ≤ b.cap
  · rw [if_pos hfit] at hq ⊢
    simp only [Option.some.injEq] at hq
    subst hq
    rfl
  · rw [if_neg hfit] at hq ⊢
    by_cases hcap : n ≤ st.capacity
    · rw [if_pos hcap] at hq ⊢
      simp only [Option.some.injEq] at hq
      subst hq
      have hib : i < b.cap := by omega
      have hc : alignUp st.nextAddr 1 ≤ alignUp st.nextAddr 1 + i ∧
          alignUp st.nextAddr 1 + i < alignUp st.nextAddr 1 + b.cap :=
        ⟨Nat.le_add_right _ _, Nat.add_lt_add_left hib _⟩
      simp [hc, Nat.add_sub_cancel_left]
    · rw [if_neg hcap] at hq
      simp at hq

/-- C1 witness: in the concrete state `stW`, growing the live block at
address 1 (capacity 2) to 3 bytes returns the pointer 4, and the byte at
offset 1 of the new block equals the old byte at offset 1. -/
theorem c1_realloc_preserves_bytes_wit :
    (mi_realloc 1 3 stW).2.mem (4 + 1) = stW.mem (1 + 1) :=
  c1_realloc_preserves_bytes stW 1 3 ⟨1, 2⟩ 4 (by decide) (by rfl) (by rfl)
    1 (by decide)

/-- C2: if reallocating a live pointer p returns null (out of memory), the
allocator state is unchanged and p is still live with its original
block. -/
theorem c2_realloc_oom_keeps_block (st : AllocState) (p n : Nat) (b : Block)
    (hb : findBlock st p = some b)
    (hq : (mi_realloc p n st).1 = none) :
    (mi_realloc p n st).2 = st ∧
      findBlock (mi_realloc p n st).2 p = some b := by
  suffices h : (mi_realloc p n st).2 = st from ⟨h, by rw [h]; exact hb⟩
  by_cases hp : p = 0
  · subst hp
    unfold mi_realloc mi_realloc_aligned at hq ⊢
    rw [if_pos rfl] at hq ⊢
    by_cases hcap : n ≤ st.capacity
    · rw [if_pos hcap] at hq
      simp at hq
    · rw [if_neg hcap]
  · unfold mi_realloc mi_realloc_aligned at hq ⊢
    rw [if_neg hp] at hq ⊢
    simp only [hb] at hq ⊢
    by_cases hfit : n ≤ b.cap
    · rw [if_pos hfit] at hq
      simp at hq
    · rw [if_neg hfit] at hq ⊢
      by_cases hcap : n ≤ st.capacity
      · rw [if_pos hcap] at hq
        simp at hq
      · rw [if_neg hcap]

/-- C2 witness: in the exhausted state `stOOM`, growing the live block at
address 1 to 5 bytes fails, the state is unchanged, and the block is still
live. -/
theorem c2_realloc_oom_keeps_block_wit :
    (mi_realloc 1 5 stOOM).2 = stOOM ∧
      findBlock (mi_realloc 1 5 stOOM).2 1 = some ⟨1, 2⟩ :=
  c2_realloc_oom_keeps_block stOOM 1 5 ⟨1, 2⟩ (by rfl) (by rfl)

/-- C5: in every well-formed state, `mi_malloc 0` returns a non-null
pointer q backing a live zero-capacity block, and freeing q once removes it
(after the free, q is no longer live). -/
theorem c5_malloc_zero_freeable (st : AllocState) (hWF : WF st) :
    ∃ q, (mi_malloc 0 st).1 = some q ∧ q ≠ 0 ∧
      findBlock (mi_malloc 0 st).2 q = some ⟨q, 0⟩ ∧
      findBlock (mi_free q (mi_malloc 0 st).2) q = none := by
  have hne : st.nextAddr ≠ 0 := by
    have := hWF.1
    omega
  refine ⟨st.nextAddr, ?_, hne, ?_, ?_⟩
  · simp [mi_malloc, mi_malloc_aligned, alignUp_one]
  · simp [mi_malloc, mi_malloc_aligned, findBlock, alignUp_one]
  · simp [mi_malloc, mi_malloc_aligned, mi_free, findBlock, alignUp_one, hne]

/-- C5 witness: in the concrete well-formed state `stW`, a zero-size
allocation returns a non-null pointer that is live until freed once. -/
theorem c5_malloc_zero_freeable_wit :
    ∃ q, (mi_malloc 0 stW).1 = some q ∧ q ≠ 0 ∧
      findBlock (mi_malloc 0 stW).2 q = some ⟨q, 0⟩ ∧
      findBlock (mi_free q (mi_malloc 0 stW).2) q = none :=
  c5_malloc_zero_freeable stW (by decide)

/-- C8: if `mi_malloc s` succeeds returning p, then after `mi_free p` a
fresh `mi_malloc s` with no intervening allocations succeeds as well. -/
theorem c8_free_then_malloc_succeeds (st : AllocState) (s p : Nat)
    (hWF : WF st) (h1 : (mi_malloc s st).1 = some p) :
    ((mi_malloc s (mi_free p (mi_malloc s st).2)).1).isSome = true := by
  unfold mi_malloc mi_malloc_aligned at h1
  by_cases hcap : s ≤ st.capacity
  · rw [if_pos hcap] at h1
    simp only [Option.some.injEq, alignUp_one] at h1
    subst h1
    have hne : st.nextAddr ≠ 0 := by
      have := hWF.1
      omega
    have hcap2 : s ≤ st.capacity - s + s := by omega
    simp [mi_malloc, mi_malloc_aligned, mi_free, findBlock, alignUp_one,
      hcap, hne, hcap2]
  · rw [if_neg hcap] at h1
    simp at h1

/-- C8 witness: in the concrete state `stW`, allocating 3 bytes yields the
pointer 4; freeing it and allocating 3 bytes again succeeds. -/
theorem c8_free_then_malloc_succeeds_wit :
    ((mi_malloc 3 (mi_free 4 (mi_malloc 3 stW).2)).1).isSome = true :=
  c8_free_then_malloc_succeeds stW 3 4 (by decide) (by rfl)

/-- C10: if reallocating a live non-null pointer p returns a non-null
pointer q, then either q is p itself (the block fit in place) or p is no
longer live after the call — p is never left as a second live block
distinct from the result. -/
theorem c10_realloc_no_second_block (st : AllocState) (p n q : Nat)
    (hWF : WF st) (hp : p ≠ 0)
    (hq : (mi_realloc p n st).1 = some q) :
    q = p ∨ ∀ x ∈ (mi_realloc p n st).2.blocks, x.addr ≠ p := by
  unfold mi_realloc mi_realloc_aligned at hq ⊢
  rw [if_neg hp] at hq ⊢
  cases hfb : findBlock st p with
  | none =>
    simp only [hfb] at hq
    simp at hq
  | some b =>
    simp only [hfb] at hq ⊢
    by_cases hfit : n ≤ b.cap
    · rw [if_pos hfit] at hq
      simp only [Option.some.injEq] at hq
      exact Or.inl hq.symm
    · rw [if_neg hfit] at hq ⊢
      by_cases hcap : n ≤ st.capacity
      · rw [if_pos hcap] at hq ⊢
        refine Or.inr ?_
        intro x hx
        rcases List.mem_cons.mp hx with h | h
        · subst h
          show alignUp st.nextAddr 1 ≠ p
          have hbm := findBlock_mem hfb
          have hba := findBlock_addr hfb
          have hlt := hWF.2 b hbm
          rw [alignUp_one]
          omega
        · have h2 := (List.mem_filter.mp h).2
          simpa [bne_iff_ne] using h2
      · rw [if_neg hcap] at hq
        simp at hq

/-- C10 witness: in the concrete state `stW`, growing the live block at
address 1 to 3 bytes returns the distinct pointer 4, and address 1 is no
longer live. -/
theorem c10_realloc_no_second_block_wit :
    4 = 1 ∨ ∀ x ∈ (mi_realloc 1 3 stW).2.blocks, x.addr ≠ 1 :=
  c10_realloc_no_second_block stW 1 3 4 (by decide) (by decide) (by rfl)

end Mimalloc
